import Mathlib

/-!
Shallow embedding of the point-cloud autoencoder repository
(files `exps/exp_baseline1/models/model_v3.py` and
`exps/exp_baseline1/train_part.py`).

Per-sample tensors are modelled as lists of rationals.  The external
elementwise exponential (`torch.exp`) is passed to the model as a function
parameter, and the one place a concrete value of it is needed a rational
surrogate with the exact value `1` at `0` is used.  Kernels that live in the
repository but outside the staged sources (the Chamfer and Earth-Mover
distance kernels under `exps/utils`) are modelled from the specification, as
noted on their definitions.
-/

namespace ShapenetAE

/-- A 3D point, one row of a `B x N x 3` point-cloud tensor. -/
abbrev Point : Type := ℚ × ℚ × ℚ

/-- Dot product of two vectors (elementwise product, then sum). -/
def dot (w x : List ℚ) : ℚ := (List.zipWith (· * ·) w x).sum

/-- `nn.Linear` applied to one sample: one output entry per weight row,
`row · x + bias`. -/
def linear (w : List (List ℚ)) (b : List ℚ) (x : List ℚ) : List ℚ :=
  List.zipWith (fun row bi => dot row x + bi) w b

/-- `torch.relu` on one scalar. -/
def relu (x : ℚ) : ℚ := max x 0

/-- Elementwise `torch.relu` on a vector. -/
def reluVec (l : List ℚ) : List ℚ := l.map relu

/-- `zipWith` over three lists, truncating at the shortest. -/
def zipWith3 (f : α → β → γ → δ) : List α → List β → List γ → List δ
  | a :: as, b :: bs, c :: cs => f a b c :: zipWith3 f as bs cs
  | _, _, _ => []

/-- The configuration fields of `conf` that `model_v3.py` reads
(`train_part.py` builds them from the command line). -/
structure Conf where
  decoder_type : String
  loss_type : String
  probabilistic : Bool
  num_point : ℕ

/-- A raised Python exception: the `ValueError` the source text intends, or
the `NameError` Python actually raises when an error-message expression
references an unbound name. -/
inductive PyError where
  | valueError (msg : String)
  | nameError (nm : String)
deriving DecidableEq

/-- The two decoder variants `Network.__init__` can build. -/
inductive DecoderKind where
  | fc
  | fcupconv
deriving DecidableEq

/-- Decoder dispatch in `Network.__init__` (model_v3.py lines 177-184).  The
final branch of the source is `raise ValueError(msg % decoder_type)`; the bare
name `decoder_type` is unbound in that scope (the value lives in
`conf.decoder_type`), so evaluating the message raises
`NameError(decoder_type)` before any `ValueError` value is constructed. -/
def Network.selectDecoder (conf : Conf) : Except PyError DecoderKind :=
  if conf.decoder_type = "fc" then .ok .fc
  else if conf.decoder_type = "fcupconv" then .ok .fcupconv
  else .error (.nameError "decoder_type")

/-- Spatial size produced by `nn.ConvTranspose2d` with the given square
kernel and stride (padding 0, dilation 1, no output padding) on a square
input: `(inSize - 1) * stride + kernel`. -/
def convTranspose2dSize (kernel stride inSize : ℕ) : ℕ :=
  (inSize - 1) * stride + kernel

/-- Output spatial size of the five stacked transposed convolutions of
`FCUpconvDecoder` (model_v3.py lines 140-144) on the `1 x 1` input that
`forward` builds at line 154: kernels 2,3,4,5,1 with strides 1,1,2,3,1. -/
def upconvSpatialSize : ℕ :=
  convTranspose2dSize 1 1
    (convTranspose2dSize 5 3
      (convTranspose2dSize 4 2
        (convTranspose2dSize 3 1
          (convTranspose2dSize 2 1 1))))

/-- Number of output points of `FCUpconvDecoder.forward`
(model_v3.py lines 146-163): the FC branch ends in `nn.Linear(1024, 1024*3)`
reshaped to triples, contributing `1024 * 3 / 3` points; the upconv branch is
reshaped from `batch x 3 x s x s` to `batch x (s*s) x 3`; line 161
concatenates both along the point dimension.  The `num_point` constructor
argument is accepted (model_v3.py line 132) but never used by any layer. -/
def FCUpconvDecoder.outPoints (num_point : ℕ) : ℕ :=
  let fcPoints := 1024 * 3 / 3
  let upconvPoints := upconvSpatialSize * upconvSpatialSize
  fcPoints + upconvPoints

/-- Output shape of `FCUpconvDecoder.forward` on a batch of the given size. -/
def FCUpconvDecoder.forwardShape (num_point batch : ℕ) : ℕ × ℕ × ℕ :=
  (batch, FCUpconvDecoder.outPoints num_point, 3)

/-- Output shape of `FCDecoder.forward` (model_v3.py lines 109-127): the last
layer is `nn.Linear(1024, num_point*3)` and its output is viewed as
`batch x (num_point*3)/3 x 3`. -/
def FCDecoder.forwardShape (num_point batch : ℕ) : ℕ × ℕ × ℕ :=
  (batch, num_point * 3 / 3, 3)

/-- The weights of `FCDecoder` (model_v3.py lines 111-117): three linear
layers; in the source their shapes are `128 -> 1024`, `1024 -> 1024` and
`1024 -> num_point*3`. -/
structure FCDecoderParams where
  w1 : List (List ℚ)
  b1 : List ℚ
  w2 : List (List ℚ)
  b2 : List ℚ
  w3 : List (List ℚ)
  b3 : List ℚ

/-- `tensor.view(batch, -1, 3)` applied to one row: group a flat vector into
consecutive coordinate triples. -/
def view3 : List ℚ → List Point
  | a :: b :: c :: rest => (a, b, c) :: view3 rest
  | _ => []

/-- `FCDecoder.forward` (model_v3.py lines 119-127) on a batch of feature
vectors: two linear+relu layers, a final linear layer, and the reshape to
`batch x num_point x 3`. -/
def FCDecoder.forward (p : FCDecoderParams) (feat : List (List ℚ)) :
    List (List Point) :=
  feat.map fun f =>
    view3 (linear p.w3 p.b3 (reluVec (linear p.w2 p.b2 (reluVec (linear p.w1 p.b1 f)))))

/-- Parameters of `Sampler` (model_v3.py lines 74-81): the two linear heads
`mlp2mu` and `mlp2var` (each `128 -> 128` in the source) and the
`probabilistic` flag. -/
structure SamplerParams where
  mlp2mu_w : List (List ℚ)
  mlp2mu_b : List ℚ
  mlp2var_w : List (List ℚ)
  mlp2var_b : List ℚ
  probabilistic : Bool

/-- `Sampler.forward` (model_v3.py lines 83-95).  `exp` is the external
elementwise exponential `torch.exp` of the numeric library, passed as a
parameter; `eps` is the draw `torch.randn_like(std)`, also passed in.  In the
probabilistic branch `std = logvar.mul(0.5).exp_()`, the per-element term
`kld = mu.pow(2).add_(logvar.exp()).mul_(-1).add_(1).add_(logvar)` and the
return value is `torch.cat([eps.mul(std).add_(mu), kld], 1)`; otherwise the
mean projection is returned as is. -/
def Sampler.forward (exp : ℚ → ℚ) (p : SamplerParams) (x eps : List ℚ) :
    List ℚ :=
  let mu := linear p.mlp2mu_w p.mlp2mu_b x
  if p.probabilistic then
    let logvar := linear p.mlp2var_w p.mlp2var_b x
    let std := logvar.map fun v => exp (v * (1 / 2))
    let kld := List.zipWith (fun m v => (m ^ 2 + exp v) * (-1) + 1 + v) mu logvar
    List.zipWith (fun es m => es + m) (List.zipWith (fun e s => e * s) eps std) mu ++ kld
  else
    mu

/-- `torch.chunk(t, 2, 1)` on one row: the first chunk holds the first
half (rounded up) of the entries, the second chunk the rest. -/
def chunk2 (l : List ℚ) : List ℚ × List ℚ :=
  (l.take ((l.length + 1) / 2), l.drop ((l.length + 1) / 2))

/-- The latent part of `Network.forward` (model_v3.py lines 190-199) for one
sample, downstream of the encoder: the sampler output is chunked in two, the
`kldiv_loss` entry of the result map is the negated sum of the second chunk
(line 196), and the first chunk is the latent feature passed on.  In the
deterministic case the sampler output passes through whole and no loss entry
is produced. -/
def Network.forwardLatent (exp : ℚ → ℚ) (p : SamplerParams) (x eps : List ℚ) :
    List ℚ × Option ℚ :=
  let feats := Sampler.forward exp p x eps
  if p.probabilistic then
    ((chunk2 feats).1, some (-(chunk2 feats).2.sum))
  else
    (feats, none)

/-- A rational surrogate for the external exponential, used only to evaluate
the model at concrete inputs; all that matters there is its exact value
`expModel 0 = 1`, shared with the function it stands in for. -/
def expModel (v : ℚ) : ℚ := 1 + v + v ^ 2 / 2 + v ^ 3 / 6

/-- Squared Euclidean distance between two 3D points. -/
def sqDist (p q : Point) : ℚ :=
  (p.1 - q.1) ^ 2 + (p.2.1 - q.2.1) ^ 2 + (p.2.2 - q.2.2) ^ 2

/-- Minimum of a list of rationals (`0` for the empty list). -/
def minList : List ℚ → ℚ
  | [] => 0
  | x :: xs => xs.foldl min x

/-- For each point of `ps`, its squared distance to the nearest point of
`qs`. -/
def nnDists (ps qs : List Point) : List ℚ :=
  ps.map fun p => minList (qs.map (sqDist p))

/-- Modelled from the spec: the Chamfer kernel (`exps/utils/cd`, not among
the staged sources) returns, for each direction, the vector of
nearest-neighbour distances from each point of one cloud into the other;
the glossary reads `sum of mean nearest-neighbor distances computed in both
directions between two point sets`. -/
def chamfer_distance (pc1 pc2 : List Point) : List ℚ × List ℚ :=
  (nnDists pc1 pc2, nnDists pc2 pc1)

/-- `torch.mean(l, dim=1)` on one row: sum divided by length. -/
def mean (l : List ℚ) : ℚ := l.sum / (l.length : ℚ)

/-- `Network.get_loss` (model_v3.py lines 206-217) for one sample.  The
Earth-Mover kernel (`exps/utils/emd`, not among the staged sources) enters as
the abstract parameter `emdK`; the claims about this function concern only
the normalization and scaling applied around it.  As in `selectDecoder`, the
final branch of the source raises on the unbound bare name `loss_type`
(the value lives in `conf.loss_type`), which in Python is a `NameError`. -/
def Network.get_loss (emdK : List Point → List Point → ℚ) (conf : Conf)
    (pc1 pc2 : List Point) : Except PyError ℚ :=
  (if conf.loss_type = "cd" then
    Except.ok (mean (chamfer_distance pc1 pc2).1 + mean (chamfer_distance pc1 pc2).2)
  else if conf.loss_type = "emd" then
    Except.ok (emdK pc1 pc2 / (min pc1.length pc2.length : ℚ))
  else
    Except.error (.nameError "loss_type")).map (· * 100)

/-- One run of the inner while loop of `train` (train_part.py lines 140-143),
phrased on the count `c` of validation batches consumed so far (so the
loop variable `val_batch_ind` is `c - 1` and `val_fraction_done` is
`c / valNum`, written `mkRat c valNum`): keep consuming while
`val_fraction_done` is at most the training fraction `tf` and validation
batches remain.  `fuel` bounds the recursion; `valNum` steps always suffice
since `c` is capped at `valNum`. -/
def valConsume (valNum : ℕ) (tf : ℚ) : ℕ → ℕ → ℕ
  | c, 0 => c
  | c, fuel + 1 =>
    if mkRat (c : ℤ) valNum ≤ tf ∧ c < valNum then valConsume valNum tf (c + 1) fuel
    else c

/-- One epoch of the interleaving in `train` (train_part.py lines 95-161):
for each training batch index `t`, the training fraction becomes
`(t+1)/trainNum` (line 103) and then the while loop consumes validation
batches; the returned list records how many were consumed after each
training batch. -/
def epochValCounts (trainNum valNum : ℕ) : List ℕ :=
  ((List.range trainNum).foldl
    (fun acc t =>
      let tf : ℚ := mkRat ((t : ℤ) + 1) trainNum
      let c := valConsume valNum tf acc.2 valNum
      (acc.1 ++ [c - acc.2], c))
    (([], 0) : List ℕ × ℕ)).1

/-- The checkpoint test of `train` (train_part.py line 130): save when no
checkpoint has been written yet, or when
`train_step - last_checkpoint_step >= checkpoint_interval`. -/
def ckptDue (last : Option ℕ) (step interval : ℕ) : Bool :=
  match last with
  | none => true
  | some l => decide ((interval : ℤ) ≤ (step : ℤ) - (l : ℤ))

/-- Folding the per-step checkpoint logic of `train` (train_part.py lines
129-137) over global optimizer steps `0, ..., n-1` (the source computes
`train_step = epoch * train_num_batch + train_batch_ind`, line 104): the
steps at which a checkpoint was written, and the last such step. -/
def ckptSteps (interval : ℕ) : ℕ → List ℕ × Option ℕ
  | 0 => ([], none)
  | n + 1 =>
    let s := ckptSteps interval n
    if ckptDue s.2 n interval then (s.1 ++ [n], some n) else s

/-- A whole training run (train_part.py lines 90-168): the periodic
checkpoints over `numSteps` global optimizer steps, paired with the final
save of lines 165-168, which the source performs unconditionally after the
epoch loop (recorded as the Boolean `true`). -/
def trainCkpt (numSteps interval : ℕ) : List ℕ × Bool :=
  ((ckptSteps interval numSteps).1, true)

/-! Helper lemmas shared by the claim theorems. -/

/-- A linear layer produces one entry per weight row (when the bias
matches). -/
theorem linear_length (w : List (List ℚ)) (b x : List ℚ) :
    (linear w b x).length = min w.length b.length := by
  simp [linear]

/-- Grouping a flat vector into triples yields a third as many entries. -/
theorem view3_length : ∀ l : List ℚ, (view3 l).length = l.length / 3
  | [] => by simp [view3]
  | [_] => by simp [view3]
  | [_, _] => by simp [view3]
  | _ :: _ :: _ :: rest => by
    rw [view3]
    simp only [List.length_cons]
    rw [view3_length rest]
    omega

/-- Sums of prefixes of a list of naturals are monotone in the prefix
length. -/
theorem sum_take_mono (l : List ℕ) {i j : ℕ} (hij : i ≤ j) :
    (l.take i).sum ≤ (l.take j).sum := by
  have hsplit := List.take_add l i (j - i)
  have h : i + (j - i) = j := by omega
  rw [h] at hsplit
  rw [hsplit, List.sum_append]
  exact Nat.le_add_right _ _

/-- The reparameterized sample `eps.mul(std).add_(mu)` of the source,
rewritten pointwise as `mean + noise * exp(0.5 * logvar)`. -/
theorem sample_zip (exp : ℚ → ℚ) :
    ∀ mu lv eps : List ℚ, mu.length = lv.length → eps.length = lv.length →
      List.zipWith (fun es m => es + m)
        (List.zipWith (fun e s => e * s) eps (lv.map fun v => exp (v * (1 / 2)))) mu
      = zipWith3 (fun m v e => m + e * exp (1 / 2 * v)) mu lv eps := by
  intro mu
  induction mu with
  | nil => intro lv eps _ _; cases lv <;> cases eps <;> rfl
  | cons m ms ih =>
    intro lv eps h1 h2
    cases lv with
    | nil => simp at h1
    | cons v vs =>
      cases eps with
      | nil => simp at h2
      | cons e es =>
        simp only [List.map_cons, List.zipWith_cons_cons, zipWith3, List.cons.injEq]
        refine ⟨?_, ih vs es (by simpa using h1) (by simpa using h2)⟩
        rw [mul_comm v (1 / 2)]
        ring

/-- The checkpoint state after `n` global optimizer steps with interval 10:
the saved steps are exactly the multiples of 10 below `n`, and the last
saved step is the largest multiple of 10 reached so far. -/
theorem ckptSteps_ten_eq : ∀ n : ℕ,
    ckptSteps 10 n
      = ((List.range n).filter (fun s => s % 10 == 0),
         match n with
         | 0 => none
         | m + 1 => some (10 * (m / 10))) := by
  intro n
  induction n with
  | zero => rfl
  | succ m ih =>
    rw [ckptSteps, ih]
    rcases m with _ | k
    · simp [ckptDue, List.range_succ]
    · have hiff : (ckptDue (some (10 * (k / 10))) (k + 1) 10 = true) ↔ (k + 1) % 10 = 0 := by
        simp only [ckptDue, decide_eq_true_eq]
        omega
      by_cases hk : (k + 1) % 10 = 0
      · rw [if_pos (hiff.mpr hk)]
        simp only [List.range_succ, List.filter_append]
        have hb : ((k + 1) % 10 == 0) = true := by simp [hk]
        have h1 : List.filter (fun s => s % 10 == 0) [k + 1] = [k + 1] := by
          simp [List.filter, hb]
        have h2 : k + 1 = 10 * ((k + 1) / 10) := by omega
        rw [h1]
        exact Prod.ext rfl (by rw [← h2])
      · rw [if_neg (fun h => hk (hiff.mp h))]
        simp only [List.range_succ, List.filter_append]
        have hb : ((k + 1) % 10 == 0) = false := by simp [hk]
        have h1 : List.filter (fun s => s % 10 == 0) [k + 1] = [] := by
          simp [List.filter, hb]
        have h2 : 10 * ((k + 1) / 10) = 10 * (k / 10) := by omega
        rw [h1, List.append_nil]
        exact Prod.ext rfl (by rw [h2])

/-- Chunking the concatenation of two halves of equal length recovers the
halves. -/
theorem chunk2_append (s k : List ℚ) (h : s.length = k.length) :
    chunk2 (s ++ k) = (s, k) := by
  unfold chunk2
  have hlen : (s ++ k).length = s.length + k.length := List.length_append s k
  have h2 : ((s ++ k).length + 1) / 2 = s.length := by rw [hlen]; omega
  rw [h2]
  exact Prod.ext (List.take_left s k) (List.drop_left s k)

/-! The claim theorems. -/

/-- C2 (code_bug evidence): on a decoder type outside {fc, fcupconv} the
constructor dispatch raises a `NameError` on the unbound bare name
`decoder_type`, not the `ValueError` the source text intends, and likewise
`get_loss` on a loss type outside {cd, emd} raises a `NameError` on
`loss_type`; both recognized decoder strings construct a decoder and both
recognized loss strings produce a loss, whatever the other configuration
fields hold, so no other configuration value is rejected by these two
checks. -/
theorem dispatch_errors_eval :
    Network.selectDecoder ⟨"voxel", "cd", false, 2048⟩ = .error (.nameError "decoder_type")
    ∧ Network.selectDecoder ⟨"fc", "l1", true, 7⟩ = .ok .fc
    ∧ Network.selectDecoder ⟨"fcupconv", "l1", false, 7⟩ = .ok .fcupconv
    ∧ Network.get_loss (fun _ _ => 0) ⟨"fc", "l1", false, 2048⟩ [] []
        = .error (.nameError "loss_type")
    ∧ (Network.get_loss (fun _ _ => 0) ⟨"voxel", "cd", true, 0⟩ [] []).isOk = true
    ∧ (Network.get_loss (fun _ _ => 0) ⟨"voxel", "emd", true, 0⟩ [] []).isOk = true :=
  ⟨rfl, rfl, rfl, rfl, rfl, rfl⟩

set_option maxRecDepth 100000 in
/-- C6: over one epoch with 100 training batches and 37 validation batches at
batch size 1, the interleaving loop records one consumption count per
training batch; the counts are non-negative, their cumulative totals are
non-decreasing, and they sum to exactly 37. -/
theorem val_interleave_100_37 :
    (epochValCounts 100 37).length = 100
    ∧ (epochValCounts 100 37).sum = 37
    ∧ (∀ c ∈ epochValCounts 100 37, 0 ≤ c)
    ∧ ∀ i j, i ≤ j →
        ((epochValCounts 100 37).take i).sum ≤ ((epochValCounts 100 37).take j).sum :=
  ⟨by decide, by decide, fun c _ => Nat.zero_le c, fun _ _ hij => sum_take_mono _ hij⟩

/-- C7: with checkpoint_interval 10, a periodic checkpoint is written at a
global optimizer step exactly when the step is a multiple of 10 (step 0
included, since no checkpoint exists yet there), and the final checkpoint
after the epoch loop is written unconditionally. -/
theorem checkpoint_cadence_interval_ten (N n : ℕ) :
    (n ∈ (trainCkpt N 10).1 ↔ n < N ∧ n % 10 = 0) ∧ (trainCkpt N 10).2 = true := by
  constructor
  · have h := congrArg Prod.fst (ckptSteps_ten_eq N)
    simp only [trainCkpt]
    rw [h]
    simp [List.mem_filter, List.mem_range]
  · rfl

/-- C9: FCUpconvDecoder always concatenates the FC branch and the upconv
branch along the point dimension, so its output point count is the sum of
the two branch contributions; the upconv branch yields a 32 x 32 spatial
map (hence 32*32 = 1024 points) from the five transposed convolutions on a
1 x 1 input, and the FC branch contributes 1024 points. -/
theorem fcupconv_output_point_count (num_point batch : ℕ) :
    FCUpconvDecoder.forwardShape num_point batch
      = (batch, 1024 * 3 / 3 + 32 * 32, 3)
    ∧ upconvSpatialSize = 32
    ∧ FCUpconvDecoder.outPoints num_point
        = 1024 * 3 / 3 + upconvSpatialSize * upconvSpatialSize :=
  ⟨rfl, rfl, rfl⟩

/-- C10: the output point count of FCUpconvDecoder is the constant 2048 for
every value of the num_point constructor argument, and its output shape does
not depend on that argument at all, unlike FCDecoder whose output point
count equals num_point. -/
theorem fcupconv_ignores_num_point (np np' batch : ℕ) :
    FCUpconvDecoder.forwardShape np batch = (batch, 2048, 3)
    ∧ FCUpconvDecoder.forwardShape np batch = FCUpconvDecoder.forwardShape np' batch
    ∧ FCDecoder.forwardShape np batch = (batch, np, 3) := by
  refine ⟨rfl, rfl, ?_⟩
  have h : np * 3 / 3 = np := by omega
  simp [FCDecoder.forwardShape, h]

/-- C1 (amended): in probabilistic mode the per-sample kldiv_loss entry that
Network.forward consumes equals the full negated sum
`-sum(1 + logvar - mean^2 - exp(logvar))`, with no 0.5 factor, and the
latent feature passed on equals `mean + noise * exp(0.5 * logvar)`
elementwise; this holds for every elementwise exponential `exp`. -/
theorem network_kldiv_and_sample (exp : ℚ → ℚ) (p : SamplerParams) (x eps : List ℚ)
    (hp : p.probabilistic = true)
    (hlen : (linear p.mlp2mu_w p.mlp2mu_b x).length = (linear p.mlp2var_w p.mlp2var_b x).length)
    (heps : eps.length = (linear p.mlp2var_w p.mlp2var_b x).length) :
    (Network.forwardLatent exp p x eps).2
      = some (-(List.zipWith (fun m v => 1 + v - m ^ 2 - exp v)
          (linear p.mlp2mu_w p.mlp2mu_b x) (linear p.mlp2var_w p.mlp2var_b x)).sum)
    ∧ (Network.forwardLatent exp p x eps).1
      = zipWith3 (fun m v e => m + e * exp (1 / 2 * v))
          (linear p.mlp2mu_w p.mlp2mu_b x) (linear p.mlp2var_w p.mlp2var_b x) eps := by
  have hslen : (List.zipWith (fun es m => es + m)
      (List.zipWith (fun e s => e * s) eps
        ((linear p.mlp2var_w p.mlp2var_b x).map fun v => exp (v * (1 / 2))))
      (linear p.mlp2mu_w p.mlp2mu_b x)).length
      = (List.zipWith (fun m v => (m ^ 2 + exp v) * (-1) + 1 + v)
          (linear p.mlp2mu_w p.mlp2mu_b x) (linear p.mlp2var_w p.mlp2var_b x)).length := by
    simp only [List.length_zipWith, List.length_map]
    omega
  have hfwd : Network.forwardLatent exp p x eps
      = ((chunk2 (Sampler.forward exp p x eps)).1,
         some (-(chunk2 (Sampler.forward exp p x eps)).2.sum)) := by
    simp [Network.forwardLatent, hp]
  have hsmp : Sampler.forward exp p x eps
      = List.zipWith (fun es m => es + m)
          (List.zipWith (fun e s => e * s) eps
            ((linear p.mlp2var_w p.mlp2var_b x).map fun v => exp (v * (1 / 2))))
          (linear p.mlp2mu_w p.mlp2mu_b x)
        ++ List.zipWith (fun m v => (m ^ 2 + exp v) * (-1) + 1 + v)
            (linear p.mlp2mu_w p.mlp2mu_b x) (linear p.mlp2var_w p.mlp2var_b x) := by
    simp [Sampler.forward, hp]
  rw [hfwd, hsmp, chunk2_append _ _ hslen]
  constructor
  · have hext : (fun m v : ℚ => (m ^ 2 + exp v) * (-1) + 1 + v)
        = fun m v : ℚ => 1 + v - m ^ 2 - exp v := by
      funext a b; ring
    rw [hext]
  · exact sample_zip exp _ _ _ hlen heps

/-- C1 witness: the amended statement at a concrete one-dimensional
instance (mean 1, logvar 0, noise 0). -/
theorem network_kldiv_and_sample_witness :
    (Network.forwardLatent expModel ⟨[[1]], [0], [[0]], [0], true⟩ [1] [0]).2
      = some (-(List.zipWith (fun m v => 1 + v - m ^ 2 - expModel v)
          (linear [[1]] [0] [1]) (linear [[0]] [0] [1])).sum)
    ∧ (Network.forwardLatent expModel ⟨[[1]], [0], [[0]], [0], true⟩ [1] [0]).1
      = zipWith3 (fun m v e => m + e * expModel (1 / 2 * v))
          (linear [[1]] [0] [1]) (linear [[0]] [0] [1]) [0] :=
  network_kldiv_and_sample expModel ⟨[[1]], [0], [[0]], [0], true⟩ [1] [0] rfl rfl rfl

/-- C1 counterexample: at mean 1, logvar 0, noise 0 the kldiv_loss entry
consumed by Network.forward evaluates to 1, whereas
`-0.5 * sum(1 + logvar - mean^2 - exp(logvar))` evaluates to 1/2, so the
claimed equation with the 0.5 factor is false. -/
theorem network_kldiv_counterexample :
    (Network.forwardLatent expModel ⟨[[1]], [0], [[0]], [0], true⟩ [1] [0]).2
      ≠ some (-(1 / 2) * (List.zipWith (fun m v => 1 + v - m ^ 2 - expModel v)
          (linear [[1]] [0] [1]) (linear [[0]] [0] [1])).sum) := by
  norm_num [Network.forwardLatent, Sampler.forward, chunk2, linear, dot, expModel,
    List.zipWith, List.map, List.take, List.drop]

/-- C3: with probabilistic set to false the sampler output is exactly the
linear mean projection of its input; it does not depend on the noise draw or
on the exponential, so two runs on the same input and weights coincide. -/
theorem sampler_deterministic (exp exp' : ℚ → ℚ) (p : SamplerParams)
    (x eps eps' : List ℚ) (h : p.probabilistic = false) :
    Sampler.forward exp p x eps = linear p.mlp2mu_w p.mlp2mu_b x
    ∧ Sampler.forward exp p x eps = Sampler.forward exp' p x eps' := by
  constructor <;> simp [Sampler.forward, h]

/-- C3 witness: the deterministic sampler at a concrete instance, with two
different exponentials and two different noise draws. -/
theorem sampler_deterministic_witness :
    Sampler.forward expModel ⟨[[1]], [0], [[1]], [0], false⟩ [3] [5]
      = linear [[1]] [0] [3]
    ∧ Sampler.forward expModel ⟨[[1]], [0], [[1]], [0], false⟩ [3] [5]
      = Sampler.forward (fun v => v) ⟨[[1]], [0], [[1]], [0], false⟩ [3] [7] :=
  sampler_deterministic expModel (fun v => v) ⟨[[1]], [0], [[1]], [0], false⟩ [3] [5] [7] rfl

/-- C4: with loss type cd, get_loss returns per sample the sum of the two
directional mean nearest-neighbour distances scaled by 100 (both directions
are summed), and is therefore symmetric in its two point sets. -/
theorem get_loss_cd_sums_both_directions (emdK : List Point → List Point → ℚ)
    (conf : Conf) (pc1 pc2 : List Point) (h : conf.loss_type = "cd") :
    Network.get_loss emdK conf pc1 pc2
      = Except.ok ((mean (nnDists pc1 pc2) + mean (nnDists pc2 pc1)) * 100)
    ∧ Network.get_loss emdK conf pc1 pc2 = Network.get_loss emdK conf pc2 pc1 := by
  constructor
  · simp [Network.get_loss, h, chamfer_distance, Except.map]
  · simp [Network.get_loss, h, chamfer_distance, Except.map, add_comm]

/-- C4 witness: the Chamfer branch at two concrete one-point clouds. -/
theorem get_loss_cd_witness :
    Network.get_loss (fun _ _ => 0) ⟨"fc", "cd", true, 0⟩
        ([(0, 0, 0)] : List Point) ([(1, 0, 0)] : List Point)
      = Except.ok ((mean (nnDists [(0, 0, 0)] [(1, 0, 0)])
          + mean (nnDists [(1, 0, 0)] [(0, 0, 0)])) * 100)
    ∧ Network.get_loss (fun _ _ => 0) ⟨"fc", "cd", true, 0⟩
        ([(0, 0, 0)] : List Point) ([(1, 0, 0)] : List Point)
      = Network.get_loss (fun _ _ => 0) ⟨"fc", "cd", true, 0⟩
          ([(1, 0, 0)] : List Point) ([(0, 0, 0)] : List Point) :=
  get_loss_cd_sums_both_directions (fun _ _ => 0) ⟨"fc", "cd", true, 0⟩
    [(0, 0, 0)] [(1, 0, 0)] rfl

/-- C5: with loss type emd, get_loss returns the Earth-Mover kernel value
divided by the smaller of the two point counts, scaled by 100, for every
kernel. -/
theorem get_loss_emd_normalized (emdK : List Point → List Point → ℚ)
    (conf : Conf) (pc1 pc2 : List Point) (h : conf.loss_type = "emd") :
    Network.get_loss emdK conf pc1 pc2
      = Except.ok (emdK pc1 pc2 / (min pc1.length pc2.length : ℚ) * 100) := by
  simp [Network.get_loss, h, Except.map]

/-- C5 witness: the EMD branch at concrete clouds of sizes 2 and 1 with a
constant kernel. -/
theorem get_loss_emd_witness :
    Network.get_loss (fun _ _ => 7) ⟨"fc", "emd", true, 0⟩
        ([(0, 0, 0), (1, 0, 0)] : List Point) ([(0, 0, 1)] : List Point)
      = Except.ok ((fun _ _ => (7 : ℚ)) ([(0, 0, 0), (1, 0, 0)] : List Point) [(0, 0, 1)]
          / (min ([(0, 0, 0), (1, 0, 0)] : List Point).length [(0, 0, 1)].length : ℚ) * 100) :=
  get_loss_emd_normalized (fun _ _ => 7) ⟨"fc", "emd", true, 0⟩
    [(0, 0, 0), (1, 0, 0)] [(0, 0, 1)] rfl

/-- C8: FCDecoder.forward produces one point cloud per batch row, each with
exactly num_point points (of 3 coordinates, by the Point type), whenever the
final layer has num_point*3 output rows as constructed. -/
theorem fcdecoder_output_shape (p : FCDecoderParams) (feat : List (List ℚ))
    (num_point : ℕ) (hw : p.w3.length = num_point * 3) (hb : p.b3.length = num_point * 3) :
    (FCDecoder.forward p feat).length = feat.length
    ∧ ∀ pc ∈ FCDecoder.forward p feat, pc.length = num_point := by
  constructor
  · simp [FCDecoder.forward]
  · intro pc hpc
    simp only [FCDecoder.forward, List.mem_map] at hpc
    obtain ⟨f, _, rfl⟩ := hpc
    rw [view3_length, linear_length, hw, hb]
    omega

/-- C8 witness: a one-point decoder applied to a batch of two feature
vectors. -/
theorem fcdecoder_output_shape_witness :
    (FCDecoder.forward ⟨[[1]], [0], [[1]], [0], [[1], [2], [3]], [0, 0, 0]⟩
        [[1], [2]]).length = 2
    ∧ ∀ pc ∈ FCDecoder.forward ⟨[[1]], [0], [[1]], [0], [[1], [2], [3]], [0, 0, 0]⟩
        [[1], [2]], pc.length = 1 :=
  fcdecoder_output_shape ⟨[[1]], [0], [[1]], [0], [[1], [2], [3]], [0, 0, 0]⟩
    [[1], [2]] 1 rfl rfl

end ShapenetAE
